import Mathlib

/-!
Shallow embedding of seq66's `setmaster` module
(src/libseq66/src/play/setmaster.cpp) and proofs about its behaviour.

The `screenset` class itself is not among the visible sources; its small
interface used by `setmaster` (own set-number with setter, play-screen flag,
usable predicate, construction from a number and grid dimensions) is modelled
from the spec.  The `std::map<screenset::number, screenset>` container is
modelled as an association list ordered by key; `std::map::insert` does not
overwrite an existing key, which `mapInsert` reproduces.
-/

namespace Seq66

/-- Modelled from the spec: the Slot-Container Entity ("screenset").  It knows
its own set-number (mutable, changed only by `swap_sets`), its grid
dimensions, whether it is the play-screen, and whether it holds usable
content; `payload` stands for its slot-grid content. -/
structure Screenset where
  set_number : Int
  rows : Int
  columns : Int
  is_playscreen : Bool
  usable : Bool
  payload : Nat
  deriving Repr, DecidableEq

/-- Modelled from the spec: `screenset::limit()`, the sentinel set number
reserved for the dummy set (2048 in the reference system). -/
def screensetLimit : Int := 2048

/-- Modelled from the spec: constructing `screenset(setno, rows, columns)`
yields a fresh, empty set: not the play-screen and with no usable content. -/
def mkScreenset (setno rows columns : Int) : Screenset :=
  { set_number := setno, rows := rows, columns := columns,
    is_playscreen := false, usable := false, payload := 0 }

/-- `screenset::is_playscreen(bool)`: setter for the play-screen flag. -/
def setPlayscreenFlag (b : Bool) (e : Screenset) : Screenset :=
  { e with is_playscreen := b }

/-- `screenset::change_set_number(n)`: sets the entity's own set-number (the
contained sequences are renumbered as a function of it, so no separate state
is kept for them). -/
def changeSetNumber (n : Int) (e : Screenset) : Screenset :=
  { e with set_number := n }

/-- The ordered container type: `std::map<screenset::number, screenset>` as a
key-ordered association list. -/
abbrev Container := List (Int × Screenset)

/-- `std::map::insert`: inserts at the key-ordered position; a no-op when the
key is already present (insert never overwrites). -/
def mapInsert (k : Int) (v : Screenset) : Container → Container
  | [] => [(k, v)]
  | (k', v') :: rest =>
    if k < k' then (k, v) :: (k', v') :: rest
    else if k = k' then (k', v') :: rest
    else (k', v') :: mapInsert k v rest

/-- `std::map::find` by key (first occurrence). -/
def mapFind (k : Int) : Container → Option Screenset
  | [] => none
  | (k', v) :: rest => if k' = k then some v else mapFind k rest

/-- Updates the entity stored at a key (first occurrence), as writing through
a `std::map` iterator does. -/
def mapModify (k : Int) (f : Screenset → Screenset) : Container → Container
  | [] => []
  | (k', v) :: rest =>
    if k' = k then (k', f v) :: rest else (k', v) :: mapModify k f rest

/-- The set manager's state: grid dimensions, the ordered container, the
stored play-screen number, and the cached play-screen reference (modelled as
the cached key, `none` for the initial null pointer). -/
structure Setmaster where
  m_rows : Int
  m_columns : Int
  m_set_count : Int
  m_container : Container
  m_playscreen : Int
  m_playscreen_pointer : Option Int
  deriving Repr, DecidableEq

/-- `setmaster::add_set(setno)`: builds a fresh screenset with the manager's
dimensions and inserts it (no-op when the key exists); the returned iterator
is modelled by the key, at which the (possibly pre-existing) entity lives. -/
def addSet (st : Setmaster) (setno : Int) : Setmaster × Int :=
  let newset := mkScreenset setno st.m_rows st.m_columns
  ({ st with m_container := mapInsert setno newset st.m_container }, setno)

/-- `setmaster::calculate_set(row, column)`: column-major linearisation with
out-of-range inputs mapped to set 0. -/
def calculateSet (st : Setmaster) (row column : Int) : Int :=
  if row < 0 ∨ row ≥ st.m_rows ∨ column < 0 ∨ column ≥ st.m_columns then 0
  else st.m_rows * column + row

/-- `setmaster::find_by_value(setno)`: linear scan in container order for the
entity whose own set-number equals the argument; returns the key and entity
of the first match (the iterator), `none` for `end()`. -/
def findByValue (setno : Int) : Container → Option (Int × Screenset)
  | [] => none
  | (k, v) :: rest =>
    if v.set_number = setno then some (k, v) else findByValue setno rest

/-- `setmaster::swap_sets(set0, set1)`: looks both entities up by value;
fails without mutation if either is missing; otherwise swaps the two stored
entities and then rewrites their own set-numbers. -/
def swapSets (st : Setmaster) (set0 set1 : Int) : Bool × Setmaster :=
  match findByValue set0 st.m_container, findByValue set1 st.m_container with
  | some (k0, e0), some (k1, e1) =>
    let c1 := mapModify k1 (fun _ => e0) (mapModify k0 (fun _ => e1) st.m_container)
    let c2 := mapModify k0 (changeSetNumber set1) c1
    let c3 := mapModify k1 (changeSetNumber set0) c2
    (true, { st with m_container := c3 })
  | _, _ => (false, st)

/-- The body of `set_playscreen` taken when the container already holds the
key: deactivate the entity at the stored play-screen key (when present),
store the new play-screen number, and activate the entity at that key. -/
def playscreenPresentPath (st : Setmaster) (setno : Int) : Setmaster :=
  let st1 :=
    match mapFind st.m_playscreen st.m_container with
    | some _ =>
      { st with m_container :=
          (mapModify st.m_playscreen (setPlayscreenFlag false) st.m_container) }
    | none => st
  let st2 := { st1 with m_playscreen := setno }
  { st2 with m_container :=
      (mapModify setno (setPlayscreenFlag true) st2.m_container) }

/-- The tail of `set_playscreen` executed whenever the range check passed:
the defensive fallback to play-screen 0 on failure, then the unconditional
refresh of the cached play-screen reference. -/
def playscreenFinish (result : Bool) (stA : Setmaster) : Bool × Setmaster :=
  let stB := if result then stA else { stA with m_playscreen := 0 }
  (result, { stB with m_playscreen_pointer := some stB.m_playscreen })

/-- `setmaster::set_playscreen(setno)`, with the self-recursive call (taken
once, right after `add_set` guarantees the key is present) unrolled through a
fuel argument.  Both live branches report success: the present path always
succeeds, and the iterator returned by `add_set` is never `end()`. -/
def setPlayscreenFuel : Nat → Setmaster → Int → Bool × Setmaster
  | 0, st, _ => (false, st)
  | fuel + 1, st, setno =>
    if 0 ≤ setno ∧ setno < screensetLimit then
      match mapFind setno st.m_container with
      | some _ => playscreenFinish true (playscreenPresentPath st setno)
      | none =>
        let stI := (addSet st setno).1
        let st2 := (setPlayscreenFuel fuel stI setno).2
        playscreenFinish true
          { st2 with m_container :=
              (mapModify setno (setPlayscreenFlag true) st2.m_container) }
    else (false, st)

/-- `setmaster::set_playscreen(setno)`: fuel 2 suffices, since the recursive
call happens only after the key has been inserted. -/
def setPlayscreen (st : Setmaster) (setno : Int) : Bool × Setmaster :=
  setPlayscreenFuel 2 st setno

/-- `setmaster::clear()`: clears the container. -/
def clearSets (st : Setmaster) : Setmaster :=
  { st with m_container := [] }

/-- `setmaster::reset()`: clear, recreate set 0, make it the play-screen
(the iterator returned by `add_set` is always valid, so the guarded call
always happens), then recreate the dummy set at the limit. -/
def reset (st : Setmaster) : Setmaster :=
  let st0 := clearSets st
  let (st1, _) := addSet st0 0
  let (_, st2) := setPlayscreen st1 0
  (addSet st2 screensetLimit).1

/-- `seq::unassigned()`: the unassigned sentinel. -/
def seqUnassigned : Int := -1

/-- The `setmaster` constructor: default 4×8 geometry, empty container,
unassigned play-screen and null cached pointer, followed by `reset()`. -/
def initSetmaster : Setmaster :=
  reset { m_rows := 4, m_columns := 8, m_set_count := 32, m_container := [],
          m_playscreen := seqUnassigned, m_playscreen_pointer := none }

/-- The usable entities of the container, in container (ascending key)
order. -/
def usables (c : Container) : List Screenset :=
  (c.map Prod.snd).filter (fun e => e.usable)

/-- Pairs each element with its 0-based position, as an `Int`, starting from
the given index. -/
def withIdx : List Screenset → Int → List (Screenset × Int)
  | [], _ => []
  | e :: rest, i => (e, i) :: withIdx rest (i + 1)

/-- Loop of `set_function(sethandler)`: `result` starts `false`, each usable
entity runs the set-handler at the next index, and the loop breaks at the
first failure.  The second component is the visitation trace (entity, index),
recording exactly the handler invocations the source performs. -/
def setFunctionSetGo (h : Screenset → Int → Bool) :
    Container → Int → Bool → Bool × List (Screenset × Int)
  | [], _, res => (res, [])
  | (_, e) :: rest, idx, res =>
    if e.usable then
      if h e idx then
        let (r, tr) := setFunctionSetGo h rest (idx + 1) true
        (r, (e, idx) :: tr)
      else (false, [(e, idx)])
    else setFunctionSetGo h rest idx res

/-- `setmaster::set_function(sethandler)`: the screenset-level dispatch
`sset.set_function(s, index)` is abstracted as applying the handler to the
entity and the index. -/
def setFunctionSet (st : Setmaster) (h : Screenset → Int → Bool) :
    Bool × List (Screenset × Int) :=
  setFunctionSetGo h st.m_container 0 false

/-- Loop shared by the other two `set_function` overloads, which visit each
usable entity without an index; `f` abstracts the per-entity visitation
(`sset.set_function(s, p)` or `sset.slot_function(p)`). -/
def setFunctionPlainGo (f : Screenset → Bool) :
    Container → Bool → Bool × List Screenset
  | [], res => (res, [])
  | (_, e) :: rest, res =>
    if e.usable then
      if f e then
        let (r, tr) := setFunctionPlainGo f rest true
        (r, e :: tr)
      else (false, [e])
    else setFunctionPlainGo f rest res

/-- `setmaster::set_function(sethandler, slothandler)`: per usable entity,
delegates to the combined set+slot visitation, abstracted as `f`. -/
def setFunctionPair (st : Setmaster) (f : Screenset → Bool) :
    Bool × List Screenset :=
  setFunctionPlainGo f st.m_container false

/-- `setmaster::set_function(slothandler)`: per usable entity, delegates to
the slot-only visitation, abstracted as `g`. -/
def setFunctionSlot (st : Setmaster) (g : Screenset → Bool) :
    Bool × List Screenset :=
  setFunctionPlainGo g st.m_container false

/-- Number of entities whose play-screen flag is set. -/
def countActive (st : Setmaster) : Nat :=
  (st.m_container.filter (fun p => p.2.is_playscreen)).length

/-- The keys stored in a container, in order. -/
def keysOf (c : Container) : List Int := c.map Prod.fst

/-- The own set-numbers of the stored entities, in container order. -/
def numsOf (c : Container) : List Int := c.map (fun p => p.2.set_number)

end Seq66

namespace Seq66

/-! ### Basic container lemmas -/

theorem changeSetNumber_self (e : Screenset) : changeSetNumber e.set_number e = e := by
  cases e; rfl

theorem mapFind_mapInsert_self (k : Int) (v : Screenset) (c : Container)
    (h : mapFind k c = none) : mapFind k (mapInsert k v c) = some v := by
  induction c with
  | nil => simp [mapInsert, mapFind]
  | cons p rest ih =>
    obtain ⟨k1, v1⟩ := p
    by_cases hk : k1 = k
    · simp [mapFind, hk] at h
    · simp only [mapFind, if_neg hk] at h
      simp only [mapInsert]
      by_cases hlt : k < k1
      · simp [if_pos hlt, mapFind]
      · rw [if_neg hlt, if_neg (fun he : k = k1 => hk he.symm)]
        simp [mapFind, hk, ih h]

theorem mapFind_mapInsert_ne (k k2 : Int) (v : Screenset) (c : Container)
    (h : k ≠ k2) : mapFind k2 (mapInsert k v c) = mapFind k2 c := by
  induction c with
  | nil => simp [mapInsert, mapFind, h]
  | cons p rest ih =>
    obtain ⟨k1, v1⟩ := p
    simp only [mapInsert]
    by_cases hlt : k < k1
    · simp [if_pos hlt, mapFind, h]
    · rw [if_neg hlt]
      by_cases heq : k = k1
      · simp [if_pos heq]
      · rw [if_neg heq]
        by_cases h12 : k1 = k2
        · simp [mapFind, if_pos h12]
        · simp [mapFind, if_neg h12, ih]

theorem mapFind_mapInsert_isSome (k : Int) (v : Screenset) (c : Container) :
    (mapFind k (mapInsert k v c)).isSome = true := by
  induction c with
  | nil => simp [mapInsert, mapFind]
  | cons p rest ih =>
    obtain ⟨k1, v1⟩ := p
    simp only [mapInsert]
    by_cases hlt : k < k1
    · simp [if_pos hlt, mapFind]
    · rw [if_neg hlt]
      by_cases heq : k = k1
      · simp [if_pos heq, mapFind, heq]
      · rw [if_neg heq]
        simp only [mapFind]
        rw [if_neg (fun he : k1 = k => heq he.symm)]
        exact ih

theorem mapFind_isSome_iff (k : Int) (c : Container) :
    (mapFind k c).isSome = true ↔ k ∈ keysOf c := by
  induction c with
  | nil => simp [mapFind, keysOf]
  | cons p rest ih =>
    obtain ⟨k1, v1⟩ := p
    simp only [mapFind, keysOf, List.map_cons, List.mem_cons]
    by_cases hk : k1 = k
    · simp [if_pos hk, hk]
    · rw [if_neg hk]
      simp only [keysOf] at ih
      rw [ih]
      constructor
      · exact fun h => Or.inr h
      · rintro (h | h)
        · exact absurd h.symm hk
        · exact h

theorem length_mapInsert_absent (k : Int) (v : Screenset) (c : Container)
    (h : mapFind k c = none) : (mapInsert k v c).length = c.length + 1 := by
  induction c with
  | nil => simp [mapInsert]
  | cons p rest ih =>
    obtain ⟨k1, v1⟩ := p
    by_cases hk : k1 = k
    · simp [mapFind, hk] at h
    · simp only [mapFind, if_neg hk] at h
      simp only [mapInsert]
      by_cases hlt : k < k1
      · simp [if_pos hlt]
      · rw [if_neg hlt, if_neg (fun he : k = k1 => hk he.symm)]
        simp [ih h]

theorem mapInsert_present_sorted (k : Int) (v : Screenset) (c : Container)
    (hsort : (keysOf c).Pairwise (fun a b => a < b))
    (h : (mapFind k c).isSome = true) : mapInsert k v c = c := by
  induction c with
  | nil => simp [mapFind] at h
  | cons p rest ih =>
    obtain ⟨k1, v1⟩ := p
    rw [keysOf, List.map_cons, List.pairwise_cons] at hsort
    by_cases hk : k1 = k
    · simp only [mapInsert]
      rw [if_neg (by omega), if_pos hk.symm]
    · simp only [mapFind] at h
      rw [if_neg hk] at h
      have hkmem : k ∈ keysOf rest := (mapFind_isSome_iff k rest).mp h
      have hk1 : k1 < k := hsort.1 k hkmem
      simp only [mapInsert]
      rw [if_neg (by omega), if_neg (by omega)]
      rw [ih hsort.2 h]

theorem mem_mapInsert (k : Int) (v : Screenset) (c : Container) (p : Int × Screenset)
    (h : p ∈ c) : p ∈ mapInsert k v c := by
  induction c with
  | nil => simp at h
  | cons q rest ih =>
    obtain ⟨k1, v1⟩ := q
    simp only [mapInsert]
    by_cases hlt : k < k1
    · rw [if_pos hlt]
      exact List.mem_cons_of_mem _ h
    · rw [if_neg hlt]
      by_cases heq : k = k1
      · rw [if_pos heq]
        exact h
      · rw [if_neg heq]
        rcases List.mem_cons.mp h with h1 | h1
        · exact h1 ▸ List.mem_cons_self _ _
        · exact List.mem_cons_of_mem _ (ih h1)

theorem mapFind_mapModify_self (k : Int) (f : Screenset → Screenset) (c : Container) :
    mapFind k (mapModify k f c) = Option.map f (mapFind k c) := by
  induction c with
  | nil => simp [mapModify, mapFind]
  | cons p rest ih =>
    obtain ⟨k1, v1⟩ := p
    simp only [mapModify]
    by_cases hk : k1 = k
    · rw [if_pos hk]
      simp [mapFind, if_pos hk]
    · rw [if_neg hk]
      simp [mapFind, if_neg hk, ih]

theorem mapFind_mapModify_ne (k k2 : Int) (f : Screenset → Screenset) (c : Container)
    (h : k ≠ k2) : mapFind k2 (mapModify k f c) = mapFind k2 c := by
  induction c with
  | nil => simp [mapModify]
  | cons p rest ih =>
    obtain ⟨k1, v1⟩ := p
    simp only [mapModify]
    by_cases hk : k1 = k
    · rw [if_pos hk]
      simp only [mapFind]
      rw [if_neg (by omega), if_neg (by omega)]
    · rw [if_neg hk]
      simp only [mapFind]
      by_cases h12 : k1 = k2
      · rw [if_pos h12, if_pos h12]
      · rw [if_neg h12, if_neg h12, ih]

theorem length_mapModify (k : Int) (f : Screenset → Screenset) (c : Container) :
    (mapModify k f c).length = c.length := by
  induction c with
  | nil => simp [mapModify]
  | cons p rest ih =>
    obtain ⟨k1, v1⟩ := p
    simp only [mapModify]
    by_cases hk : k1 = k
    · rw [if_pos hk]
      simp
    · rw [if_neg hk]
      simp [ih]

theorem keysOf_mapModify (k : Int) (f : Screenset → Screenset) (c : Container) :
    keysOf (mapModify k f c) = keysOf c := by
  induction c with
  | nil => simp [mapModify]
  | cons p rest ih =>
    obtain ⟨k1, v1⟩ := p
    simp only [mapModify]
    by_cases hk : k1 = k
    · rw [if_pos hk]
      simp [keysOf]
    · rw [if_neg hk]
      simp only [keysOf, List.map_cons]
      simp only [keysOf] at ih
      rw [ih]

/-! ### `find_by_value` lemmas -/

theorem findByValue_eq_none_iff (n : Int) (c : Container) :
    findByValue n c = none ↔ ∀ p ∈ c, p.2.set_number ≠ n := by
  induction c with
  | nil => simp [findByValue]
  | cons p rest ih =>
    obtain ⟨k1, v1⟩ := p
    simp only [findByValue]
    by_cases hv : v1.set_number = n
    · rw [if_pos hv]
      simp only [List.mem_cons]
      constructor
      · intro h
        exact absurd h (by simp)
      · intro h
        exact absurd hv (h (k1, v1) (Or.inl rfl))
    · rw [if_neg hv]
      rw [ih]
      constructor
      · intro h p hp
        rcases List.mem_cons.mp hp with h1 | h1
        · rw [h1]
          exact hv
        · exact h p h1
      · intro h p hp
        exact h p (List.mem_cons_of_mem _ hp)

theorem findByValue_some_mem (n : Int) (c : Container) (q : Int × Screenset)
    (h : findByValue n c = some q) : q ∈ c ∧ q.2.set_number = n := by
  induction c with
  | nil => simp [findByValue] at h
  | cons p rest ih =>
    obtain ⟨k1, v1⟩ := p
    simp only [findByValue] at h
    by_cases hv : v1.set_number = n
    · rw [if_pos hv] at h
      obtain rfl : (k1, v1) = q := Option.some.inj h
      exact ⟨List.mem_cons_self _ _, hv⟩
    · rw [if_neg hv] at h
      obtain ⟨h1, h2⟩ := ih h
      exact ⟨List.mem_cons_of_mem _ h1, h2⟩

theorem findByValue_of_decomp (n : Int) (l1 l2 : Container) (q : Int × Screenset)
    (hq : q.2.set_number = n) (hl1 : ∀ p ∈ l1, p.2.set_number ≠ n) :
    findByValue n (l1 ++ q :: l2) = some q := by
  induction l1 with
  | nil =>
    simp only [List.nil_append, findByValue]
    rw [if_pos hq]
  | cons p rest ih =>
    obtain ⟨k1, v1⟩ := p
    simp only [List.cons_append, findByValue]
    rw [if_neg (hl1 (k1, v1) (List.mem_cons_self _ _))]
    exact ih (fun p hp => hl1 p (List.mem_cons_of_mem _ hp))

theorem findByValue_decomp (n : Int) (c : Container) (q : Int × Screenset)
    (h : findByValue n c = some q) :
    ∃ l1 l2, c = l1 ++ q :: l2 ∧ q.2.set_number = n ∧
      ∀ p ∈ l1, p.2.set_number ≠ n := by
  induction c with
  | nil => simp [findByValue] at h
  | cons p rest ih =>
    obtain ⟨k1, v1⟩ := p
    simp only [findByValue] at h
    by_cases hv : v1.set_number = n
    · rw [if_pos hv] at h
      obtain rfl : (k1, v1) = q := Option.some.inj h
      exact ⟨[], rest, by simp, hv, by simp⟩
    · rw [if_neg hv] at h
      obtain ⟨l1, l2, hc, hqn, hl1⟩ := ih h
      refine ⟨(k1, v1) :: l1, l2, by rw [hc]; rfl, hqn, ?_⟩
      intro p hp
      rcases List.mem_cons.mp hp with h1 | h1
      · rw [h1]
        exact hv
      · exact hl1 p h1

/-! ### Loop lemmas for the `set_function` overloads -/

theorem setFunctionSetGo_no_usable (h : Screenset → Int → Bool) (c : Container)
    (idx : Int) (res : Bool) (hu : ∀ p ∈ c, p.2.usable = false) :
    setFunctionSetGo h c idx res = (res, []) := by
  induction c generalizing idx with
  | nil => rfl
  | cons p rest ih =>
    obtain ⟨k1, e1⟩ := p
    have he : e1.usable = false := hu (k1, e1) (List.mem_cons_self _ _)
    simp only [setFunctionSetGo, he]
    simp only [Bool.false_eq_true, if_false]
    exact ih idx (fun p hp => hu p (List.mem_cons_of_mem _ hp))

theorem setFunctionPlainGo_no_usable (f : Screenset → Bool) (c : Container)
    (res : Bool) (hu : ∀ p ∈ c, p.2.usable = false) :
    setFunctionPlainGo f c res = (res, []) := by
  induction c with
  | nil => rfl
  | cons p rest ih =>
    obtain ⟨k1, e1⟩ := p
    have he : e1.usable = false := hu (k1, e1) (List.mem_cons_self _ _)
    simp only [setFunctionPlainGo, he]
    simp only [Bool.false_eq_true, if_false]
    exact ih (fun p hp => hu p (List.mem_cons_of_mem _ hp))

/-! ### Claim theorems (first batch) -/

/-- C6: for every `n` outside `[0, LIMIT)`, `set_playscreen(n)` returns
failure and leaves the manager's state entirely unchanged — the mapping,
every entity's active flag, the stored play-screen identity and the cached
play-screen reference are all as before the call. -/
theorem setPlayscreen_out_of_range (st : Setmaster) (n : Int)
    (h : ¬ (0 ≤ n ∧ n < screensetLimit)) : setPlayscreen st n = (false, st) := by
  simp only [setPlayscreen, setPlayscreenFuel, if_neg h]

/-- Witness for C6 at `n = 2048 = LIMIT`, which lies outside `[0, LIMIT)`. -/
theorem setPlayscreen_out_of_range_witness :
    setPlayscreen initSetmaster 2048 = (false, initSetmaster) :=
  setPlayscreen_out_of_range initSetmaster 2048 (by decide)

/-- C8: within `[0, rows) × [0, columns)` the set number is
`rows * column + row` and the map is injective on that domain; outside it,
`calculate_set` returns 0. -/
theorem calculateSet_spec (st : Setmaster) :
    (∀ r c : Int, 0 ≤ r → r < st.m_rows → 0 ≤ c → c < st.m_columns →
      calculateSet st r c = st.m_rows * c + r) ∧
    (∀ r c r2 c2 : Int, 0 ≤ r → r < st.m_rows → 0 ≤ c → c < st.m_columns →
      0 ≤ r2 → r2 < st.m_rows → 0 ≤ c2 → c2 < st.m_columns →
      calculateSet st r c = calculateSet st r2 c2 → r = r2 ∧ c = c2) ∧
    (∀ r c : Int, (r < 0 ∨ st.m_rows ≤ r ∨ c < 0 ∨ st.m_columns ≤ c) →
      calculateSet st r c = 0) := by
  refine ⟨?_, ?_, ?_⟩
  · intro r c h1 h2 h3 h4
    rw [calculateSet, if_neg (by omega)]
  · intro r c r2 c2 h1 h2 h3 h4 h5 h6 h7 h8 heq
    rw [calculateSet, if_neg (by omega), calculateSet, if_neg (by omega)] at heq
    have h9 : st.m_rows * (c - c2) = r2 - r := by linear_combination heq
    have hc : c = c2 := by
      by_contra hne
      have h10 : (1:Int) ≤ |c - c2| := Int.one_le_abs (by omega)
      have h11 : |st.m_rows * (c - c2)| = st.m_rows * |c - c2| := by
        rw [abs_mul, abs_of_nonneg (by omega : (0:Int) ≤ st.m_rows)]
      have h12 : st.m_rows ≤ |st.m_rows * (c - c2)| := by
        rw [h11]
        nlinarith
      rw [h9] at h12
      have h13 : |r2 - r| < st.m_rows := abs_lt.mpr (by omega)
      linarith
    have hr : r = r2 := by
      rw [hc, sub_self, mul_zero] at h9
      omega
    exact ⟨hr, hc⟩
  · intro r c h
    rw [calculateSet, if_pos (by omega)]

/-- Witness for C8 at the default 4×8 geometry: `calculate_set(2, 3) = 14`
and an out-of-range input returns 0. -/
theorem calculateSet_spec_witness :
    calculateSet initSetmaster 2 3 = initSetmaster.m_rows * 3 + 2 ∧
    calculateSet initSetmaster 4 0 = 0 :=
  ⟨(calculateSet_spec initSetmaster).1 2 3 (by decide) (by decide) (by decide)
      (by decide),
   (calculateSet_spec initSetmaster).2.2 4 0 (Or.inr (Or.inl (by decide)))⟩

/-- C4: when at least one of the two arguments does not occur as any stored
entity's own set-number, `swap_sets` returns failure and the whole manager
state — in particular every entity — is unchanged. -/
theorem swapSets_not_found (st : Setmaster) (a b : Int)
    (h : (∀ p ∈ st.m_container, p.2.set_number ≠ a) ∨
         (∀ p ∈ st.m_container, p.2.set_number ≠ b)) :
    swapSets st a b = (false, st) := by
  rcases h with h | h
  · have ha := (findByValue_eq_none_iff a st.m_container).mpr h
    unfold swapSets
    rw [ha]
  · have hb := (findByValue_eq_none_iff b st.m_container).mpr h
    unfold swapSets
    rw [hb]
    cases hfa : findByValue a st.m_container with
    | none => rfl
    | some q =>
      obtain ⟨k0, e0⟩ := q
      rfl

/-- Witness for C4: on a fresh manager, 9 is nobody's set-number, so
`swap_sets(9, 0)` fails and changes nothing. -/
theorem swapSets_not_found_witness :
    swapSets initSetmaster 9 0 = (false, initSetmaster) :=
  swapSets_not_found initSetmaster 9 0 (Or.inl (by decide))

/-- C1 (code bug): on a fresh manager, `add_set(5); swap_sets(0, 5);
set_playscreen(7)` leaves two entities with the play-screen flag set.
`set_playscreen` deactivates the entity stored at key `m_playscreen`, but a
swap moves the active flag to a different key, so the previously active
entity is never unmarked and the at-most-one-active invariant fails. -/
theorem invariant_violation_after_swap :
    countActive (setPlayscreen (swapSets ((addSet initSetmaster 5).1) 0 5).2 7).2
      = 2 := by
  decide

/-- C10: when no stored entity reports usable content, each `set_function`
overload returns failure without a single handler invocation (the visitation
trace is empty), because the loop's `result` starts out `false`. -/
theorem setFunction_no_usable (st : Setmaster)
    (hu : ∀ p ∈ st.m_container, p.2.usable = false) :
    (∀ h, setFunctionSet st h = (false, [])) ∧
    (∀ f, setFunctionPair st f = (false, [])) ∧
    (∀ g, setFunctionSlot st g = (false, [])) := by
  refine ⟨?_, ?_, ?_⟩
  · intro h
    exact setFunctionSetGo_no_usable h st.m_container 0 false hu
  · intro f
    exact setFunctionPlainGo_no_usable f st.m_container false hu
  · intro g
    exact setFunctionPlainGo_no_usable g st.m_container false hu

/-- Witness for C10: a freshly constructed manager holds only set 0 and the
dummy, both without usable content, and all three overloads fail without
visiting anything. -/
theorem setFunction_no_usable_witness :
    setFunctionSet initSetmaster (fun _ _ => true) = (false, []) ∧
    setFunctionPair initSetmaster (fun _ => true) = (false, []) ∧
    setFunctionSlot initSetmaster (fun _ => false) = (false, []) :=
  ⟨(setFunction_no_usable initSetmaster (by decide)).1 _,
   (setFunction_no_usable initSetmaster (by decide)).2.1 _,
   (setFunction_no_usable initSetmaster (by decide)).2.2 _⟩

/-- C9: `add_set(n)` inserts a fresh entity with the manager's grid
dimensions when key `n` is absent (the mapping grows by exactly one), is a
no-op on the mapping when the key is present, returns a locator to the
entity keyed `n` in both cases, keeps every pre-existing entity (hence every
active flag) unchanged, and never touches the stored play-screen identity or
the cached play-screen reference. -/
theorem addSet_spec (st : Setmaster) (n : Int) :
    ((addSet st n).1.m_playscreen = st.m_playscreen ∧
     (addSet st n).1.m_playscreen_pointer = st.m_playscreen_pointer) ∧
    ((addSet st n).2 = n ∧
     (mapFind n (addSet st n).1.m_container).isSome = true) ∧
    (∀ p ∈ st.m_container, p ∈ (addSet st n).1.m_container) ∧
    (mapFind n st.m_container = none →
      (addSet st n).1.m_container.length = st.m_container.length + 1 ∧
      mapFind n (addSet st n).1.m_container =
        some (mkScreenset n st.m_rows st.m_columns)) ∧
    ((keysOf st.m_container).Pairwise (fun a b => a < b) →
      (mapFind n st.m_container).isSome = true →
      (addSet st n).1.m_container = st.m_container) := by
  refine ⟨⟨rfl, rfl⟩, ⟨rfl, mapFind_mapInsert_isSome n _ st.m_container⟩, ?_, ?_, ?_⟩
  · exact fun p hp => mem_mapInsert n _ st.m_container p hp
  · intro habs
    exact ⟨length_mapInsert_absent n _ st.m_container habs,
           mapFind_mapInsert_self n _ st.m_container habs⟩
  · intro hsort hpres
    exact mapInsert_present_sorted n _ st.m_container hsort hpres

/-- Witness for C9: adding fresh set 3 to a fresh manager grows the mapping
by one and stores a 4×8 entity keyed 3. -/
theorem addSet_spec_witness :
    (addSet initSetmaster 3).1.m_container.length
        = initSetmaster.m_container.length + 1 ∧
    mapFind 3 (addSet initSetmaster 3).1.m_container =
      some (mkScreenset 3 initSetmaster.m_rows initSetmaster.m_columns) :=
  (addSet_spec initSetmaster 3).2.2.2.1 (by decide)

/-- C2: after any `reset()` — including the implicit one performed by
construction, and from an arbitrary prior state, so reset never fails — the
entity keyed 0 exists and is the active play-screen (flag set and stored
play-screen identity 0), and the dummy entity keyed `LIMIT = 2048` exists
and is not the play-screen. -/
theorem reset_postcondition (st : Setmaster) :
    (reset st).m_playscreen = 0 ∧
    (∃ e, mapFind 0 (reset st).m_container = some e ∧ e.is_playscreen = true) ∧
    (∃ d, mapFind screensetLimit (reset st).m_container = some d ∧
      d.is_playscreen = false) := by
  by_cases hps : st.m_playscreen = 0
  · norm_num [reset, clearSets, addSet, setPlayscreen, setPlayscreenFuel,
      playscreenPresentPath, playscreenFinish, mapInsert, mapFind, mapModify,
      mkScreenset, setPlayscreenFlag, screensetLimit, hps]
  · have hps2 : ¬ ((0:Int) = st.m_playscreen) := fun h => hps h.symm
    norm_num [reset, clearSets, addSet, setPlayscreen, setPlayscreenFuel,
      playscreenPresentPath, playscreenFinish, mapInsert, mapFind, mapModify,
      mkScreenset, setPlayscreenFlag, screensetLimit, hps2]

theorem setFunctionSetGo_fail_spec (h : Screenset → Int → Bool) (c : Container)
    (idx0 : Int) (res0 : Bool) (k : Nat)
    (hk1 : 1 ≤ k) (hk2 : k ≤ (usables c).length)
    (hsucc : ∀ (i : Nat) (e : Screenset), i + 1 < k →
      (usables c).get? i = some e → h e (idx0 + (i : Int)) = true)
    (hfail : ∀ e : Screenset, (usables c).get? (k - 1) = some e →
      h e (idx0 + ((k - 1 : Nat) : Int)) = false) :
    setFunctionSetGo h c idx0 res0 = (false, withIdx ((usables c).take k) idx0) := by
  induction c generalizing idx0 res0 k with
  | nil =>
    simp only [usables, List.map_nil, List.filter_nil, List.length_nil] at hk2
    omega
  | cons p rest ih =>
    obtain ⟨key, e⟩ := p
    by_cases hu : e.usable = true
    · have husc : usables ((key, e) :: rest) = e :: usables rest := by
        simp [usables, hu]
      rw [husc] at hk2 hsucc hfail ⊢
      rcases Nat.lt_or_ge k 2 with hklt | hkge
      · have hkone : k = 1 := by omega
        subst hkone
        have hf : h e idx0 = false := by
          have := hfail e (by simp)
          simpa using this
        simp [setFunctionSetGo, hu, hf, withIdx]
      · obtain ⟨m, rfl⟩ : ∃ m, k = m + 2 := ⟨k - 2, by omega⟩
        have ht : h e idx0 = true := by
          have := hsucc 0 e (by omega) (by simp)
          simpa using this
        have hsucc2 : ∀ (i : Nat) (e2 : Screenset), i + 1 < m + 1 →
            (usables rest).get? i = some e2 →
            h e2 ((idx0 + 1) + (i : Int)) = true := by
          intro i e2 hi hget
          have := hsucc (i + 1) e2 (by omega) (by simpa using hget)
          have harith : idx0 + ((i + 1 : Nat) : Int) = (idx0 + 1) + (i : Int) := by
            push_cast
            ring
          rwa [harith] at this
        have hfail2 : ∀ e2 : Screenset,
            (usables rest).get? (m + 1 - 1) = some e2 →
            h e2 ((idx0 + 1) + ((m + 1 - 1 : Nat) : Int)) = false := by
          intro e2 hget
          have := hfail e2 (by simpa using hget)
          have harith : idx0 + ((m + 2 - 1 : Nat) : Int)
              = (idx0 + 1) + ((m + 1 - 1 : Nat) : Int) := by
            omega
          rwa [harith] at this
        have hrec := ih (idx0 + 1) true (m + 1) (by omega)
          (by
            simp only [List.length_cons] at hk2
            omega)
          hsucc2 hfail2
        simp [setFunctionSetGo, hu, ht, hrec, withIdx]
    · have hu2 : e.usable = false := by
        simpa using hu
      have husc : usables ((key, e) :: rest) = usables rest := by
        simp [usables, hu2]
      rw [husc] at hk2 hsucc hfail ⊢
      simp only [setFunctionSetGo, hu2, Bool.false_eq_true, if_false]
      exact ih idx0 res0 k hk1 hk2 hsucc hfail

/-- C7: if the set-handler succeeds on its first `k - 1` invocations and
fails on the `k`-th (`1 ≤ k ≤` number of usable entities), then
`set_function(sethandler)` invokes the handler on exactly the first `k`
usable entities in container (ascending key) order with a strictly
increasing index starting at 0, visits nothing after the failing entity, and
returns failure. -/
theorem setFunction_fail_at_k (st : Setmaster) (h : Screenset → Int → Bool)
    (k : Nat) (hk1 : 1 ≤ k) (hk2 : k ≤ (usables st.m_container).length)
    (hsucc : ∀ (i : Nat) (e : Screenset), i + 1 < k →
      (usables st.m_container).get? i = some e → h e (i : Int) = true)
    (hfail : ∀ e : Screenset, (usables st.m_container).get? (k - 1) = some e →
      h e ((k - 1 : Nat) : Int) = false) :
    setFunctionSet st h = (false, withIdx ((usables st.m_container).take k) 0) := by
  apply setFunctionSetGo_fail_spec h st.m_container 0 false k hk1 hk2
  · intro i e hi hget
    have := hsucc i e hi hget
    simpa using this
  · intro e hget
    have := hfail e hget
    simpa using this

/-- Witness for C7: two usable entities, a handler that succeeds at index 0
and fails at index 1 (`k = 2`): both are visited, in order, and the call
fails. -/
theorem setFunction_fail_at_k_witness :
    setFunctionSet
      { m_rows := 4, m_columns := 8, m_set_count := 32,
        m_container := [(0, ⟨0, 4, 8, true, true, 0⟩), (1, ⟨1, 4, 8, false, true, 0⟩)],
        m_playscreen := 0, m_playscreen_pointer := some 0 }
      (fun _ i => i == 0)
      = (false,
        withIdx
          ((usables
            [(0, ⟨0, 4, 8, true, true, 0⟩), (1, ⟨1, 4, 8, false, true, 0⟩)]).take 2)
          0) :=
  setFunction_fail_at_k _ _ 2 (by decide) (by decide)
    (by
      intro i e hi hget
      have hizero : i = 0 := by omega
      subst hizero
      decide)
    (by
      intro e hget
      decide)

/-! ### Lemmas towards the swap involution and fresh-activation claims -/

theorem changeSetNumber_comp (n m : Int) (e : Screenset) :
    changeSetNumber n (changeSetNumber m e) = changeSetNumber n e := rfl

theorem changeSetNumber_of_eq (n : Int) (e : Screenset)
    (h : e.set_number = n) : changeSetNumber n e = e := by
  rw [← h]
  exact changeSetNumber_self e

theorem setmaster_container_eta (st : Setmaster) (c : Container)
    (h : c = st.m_container) : { st with m_container := c } = st := by
  subst h
  cases st
  rfl

theorem value_eq_of_nodup_keys (c : Container) (hnd : (keysOf c).Nodup)
    (k : Int) (e1 e2 : Screenset) (h1 : (k, e1) ∈ c) (h2 : (k, e2) ∈ c) :
    e1 = e2 := by
  induction c with
  | nil => simp at h1
  | cons p rest ih =>
    obtain ⟨kp, vp⟩ := p
    rw [keysOf, List.map_cons, List.nodup_cons] at hnd
    rcases List.mem_cons.mp h1 with hh1 | hh1 <;>
      rcases List.mem_cons.mp h2 with hh2 | hh2
    · rw [Prod.mk.injEq] at hh1 hh2
      rw [hh1.2, hh2.2]
    · rw [Prod.mk.injEq] at hh1
      exfalso
      apply hnd.1
      rw [← hh1.1]
      exact List.mem_map.mpr ⟨(k, e2), hh2, rfl⟩
    · rw [Prod.mk.injEq] at hh2
      exfalso
      apply hnd.1
      rw [← hh2.1]
      exact List.mem_map.mpr ⟨(k, e1), hh1, rfl⟩
    · exact ih hnd.2 hh1 hh2

theorem entry_unique_of_nodup_nums (c : Container)
    (hnd : (numsOf c).Nodup) (p q : Int × Screenset) (hp : p ∈ c) (hq : q ∈ c)
    (hnum : p.2.set_number = q.2.set_number) : p = q := by
  induction c with
  | nil => simp at hp
  | cons r rest ih =>
    rw [numsOf, List.map_cons, List.nodup_cons] at hnd
    rcases List.mem_cons.mp hp with hh1 | hh1 <;>
      rcases List.mem_cons.mp hq with hh2 | hh2
    · rw [hh1, hh2]
    · exfalso
      apply hnd.1
      refine List.mem_map.mpr ⟨q, hh2, ?_⟩
      rw [← hnum, hh1]
    · exfalso
      apply hnd.1
      refine List.mem_map.mpr ⟨p, hh1, ?_⟩
      rw [hnum, hh2]
    · exact ih hnd.2 hh1 hh2

theorem findByValue_isSome_of_mem_nums (n : Int) (c : Container)
    (h : n ∈ numsOf c) : ∃ q, findByValue n c = some q := by
  cases hf : findByValue n c with
  | some q => exact ⟨q, rfl⟩
  | none =>
    exfalso
    have hall := (findByValue_eq_none_iff n c).mp hf
    rw [numsOf] at h
    obtain ⟨p, hp, hpn⟩ := List.mem_map.mp h
    exact hall p hp hpn

theorem map_key_if_id (k : Int) (g : Screenset → Screenset) (c : Container)
    (hk : ∀ p ∈ c, p.1 ≠ k) :
    c.map (fun p => if p.1 = k then (p.1, g p.2) else p) = c := by
  induction c with
  | nil => rfl
  | cons p rest ih =>
    rw [List.map_cons, if_neg (hk p (List.mem_cons_self _ _))]
    rw [ih (fun q hq => hk q (List.mem_cons_of_mem _ hq))]

theorem mapModify_eq_map (k : Int) (f : Screenset → Screenset) (c : Container)
    (hnd : (keysOf c).Nodup) :
    mapModify k f c = c.map (fun p => if p.1 = k then (p.1, f p.2) else p) := by
  induction c with
  | nil => rfl
  | cons p rest ih =>
    obtain ⟨k1, v1⟩ := p
    rw [keysOf, List.map_cons, List.nodup_cons] at hnd
    simp only [mapModify, List.map_cons]
    by_cases hk : k1 = k
    · rw [if_pos hk]
      have hnot : ∀ q ∈ rest, q.1 ≠ k := by
        intro q hq hqk
        apply hnd.1
        rw [hk]
        exact List.mem_map.mpr ⟨q, hq, hqk⟩
      rw [map_key_if_id k f rest hnot]
      simp [hk]
    · rw [if_neg hk]
      simp only [if_neg hk]
      rw [ih hnd.2]

theorem keysOf_map_fst_preserved (f : Int × Screenset → Int × Screenset)
    (c : Container) (hf : ∀ p ∈ c, (f p).1 = p.1) :
    keysOf (c.map f) = keysOf c := by
  rw [keysOf, keysOf, List.map_map]
  exact List.map_congr_left (fun p hp => hf p hp)

theorem mapModify_eq_self (k : Int) (f : Screenset → Screenset) (c : Container)
    (hnd : (keysOf c).Nodup) (e : Screenset) (he : (k, e) ∈ c)
    (hf : f e = e) : mapModify k f c = c := by
  induction c with
  | nil => rfl
  | cons p rest ih =>
    obtain ⟨k1, v1⟩ := p
    rw [keysOf, List.map_cons, List.nodup_cons] at hnd
    simp only [mapModify]
    by_cases hk : k1 = k
    · rw [if_pos hk]
      have hv : v1 = e := by
        rcases List.mem_cons.mp he with hh | hh
        · rw [Prod.mk.injEq] at hh
          exact hh.2.symm
        · exfalso
          apply hnd.1
          rw [hk]
          exact List.mem_map.mpr ⟨(k, e), hh, rfl⟩
      rw [hv, hf]
    · rw [if_neg hk]
      have he2 : (k, e) ∈ rest := by
        rcases List.mem_cons.mp he with hh | hh
        · rw [Prod.mk.injEq] at hh
          exact absurd hh.1.symm hk
        · exact hh
      rw [ih hnd.2 he2]

theorem mapInsert_decomp (k : Int) (v : Screenset) (c : Container)
    (habs : mapFind k c = none) :
    ∃ l1 l2, mapInsert k v c = l1 ++ (k, v) :: l2 ∧ c = l1 ++ l2 := by
  induction c with
  | nil => exact ⟨[], [], rfl, rfl⟩
  | cons p rest ih =>
    obtain ⟨k1, v1⟩ := p
    have hk : ¬ (k1 = k) := by
      intro hk
      simp [mapFind, if_pos hk] at habs
    simp only [mapFind, if_neg hk] at habs
    simp only [mapInsert]
    by_cases hlt : k < k1
    · exact ⟨[], (k1, v1) :: rest, by rw [if_pos hlt]; rfl, rfl⟩
    · rw [if_neg hlt, if_neg (fun he : k = k1 => hk he.symm)]
      obtain ⟨l1, l2, h1, h2⟩ := ih habs
      exact ⟨(k1, v1) :: l1, l2, by rw [h1]; rfl, by rw [h2]; rfl⟩

theorem swapSets_eq_map (st : Setmaster) (a b kA kB : Int) (eA eB : Screenset)
    (hA : findByValue a st.m_container = some (kA, eA))
    (hB : findByValue b st.m_container = some (kB, eB))
    (hne : kA ≠ kB) (hnd : (keysOf st.m_container).Nodup) :
    swapSets st a b = (true,
      { st with m_container := (st.m_container.map
          (fun p => if p.1 = kA then (kA, changeSetNumber b eB)
                    else if p.1 = kB then (kB, changeSetNumber a eA) else p)) }) := by
  unfold swapSets
  rw [hA, hB]
  have hnd1 : (keysOf (mapModify kA (fun _ => eB) st.m_container)).Nodup := by
    rw [keysOf_mapModify]
    exact hnd
  have hnd2 : (keysOf (mapModify kB (fun _ => eA)
      (mapModify kA (fun _ => eB) st.m_container))).Nodup := by
    rw [keysOf_mapModify, keysOf_mapModify]
    exact hnd
  have hnd3 : (keysOf (mapModify kA (changeSetNumber b) (mapModify kB (fun _ => eA)
      (mapModify kA (fun _ => eB) st.m_container)))).Nodup := by
    rw [keysOf_mapModify, keysOf_mapModify, keysOf_mapModify]
    exact hnd
  have h1 := mapModify_eq_map kA (fun _ => eB) st.m_container hnd
  have h2 := mapModify_eq_map kB (fun _ => eA) _ hnd1
  have h3 := mapModify_eq_map kA (changeSetNumber b) _ hnd2
  have h4 := mapModify_eq_map kB (changeSetNumber a) _ hnd3
  have hcont : mapModify kB (changeSetNumber a)
      (mapModify kA (changeSetNumber b) (mapModify kB (fun _ => eA)
        (mapModify kA (fun _ => eB) st.m_container)))
      = st.m_container.map
          (fun p => if p.1 = kA then (kA, changeSetNumber b eB)
                    else if p.1 = kB then (kB, changeSetNumber a eA) else p) := by
    rw [h4, h3, h2, h1, List.map_map, List.map_map, List.map_map]
    apply List.map_congr_left
    intro p hp
    by_cases hpA : p.1 = kA
    · simp [Function.comp, hpA, hne]
    · by_cases hpB : p.1 = kB
      · simp [Function.comp, hpA, hpB, Ne.symm hne]
      · simp [Function.comp, hpA, hpB]
  show (true, { st with m_container := (mapModify kB (changeSetNumber a)
      (mapModify kA (changeSetNumber b) (mapModify kB (fun _ => eA)
        (mapModify kA (fun _ => eB) st.m_container)))) }) = _
  rw [hcont]

/-- C3: when both `a` and `b` occur as stored entities' own set-numbers (in
a state with distinct storage keys and distinct own-numbers, as `std::map`
and the renumbering discipline guarantee for every reachable state),
`swap_sets(a, b)` succeeds, and running it twice restores the manager
exactly: every entity's own set-number attribute and content return to their
pre-swap values. -/
theorem swapSets_involution (st : Setmaster) (a b : Int)
    (hkeys : (keysOf st.m_container).Nodup)
    (hnums : (numsOf st.m_container).Nodup)
    (ha : a ∈ numsOf st.m_container) (hb : b ∈ numsOf st.m_container) :
    (swapSets st a b).1 = true ∧
    (swapSets (swapSets st a b).2 a b).1 = true ∧
    (swapSets (swapSets st a b).2 a b).2 = st := by
  obtain ⟨qA, hA⟩ := findByValue_isSome_of_mem_nums a _ ha
  obtain ⟨kA, eA⟩ := qA
  obtain ⟨qB, hB⟩ := findByValue_isSome_of_mem_nums b _ hb
  obtain ⟨kB, eB⟩ := qB
  obtain ⟨hAmem, hAnum⟩ := findByValue_some_mem a _ _ hA
  obtain ⟨hBmem, hBnum⟩ := findByValue_some_mem b _ _ hB
  by_cases hab : a = b
  · subst hab
    rw [hA, Option.some.injEq, Prod.mk.injEq] at hB
    obtain ⟨hk, he⟩ := hB
    subst hk
    subst he
    have h1 : mapModify kA (fun _ => eA) st.m_container = st.m_container :=
      mapModify_eq_self kA _ st.m_container hkeys eA hAmem rfl
    have h2 : mapModify kA (changeSetNumber a) st.m_container = st.m_container :=
      mapModify_eq_self kA _ st.m_container hkeys eA hAmem
        (changeSetNumber_of_eq a eA hAnum)
    have hswap : swapSets st a a = (true, st) := by
      unfold swapSets
      rw [hA]
      show (true, { st with m_container := (mapModify kA (changeSetNumber a)
          (mapModify kA (changeSetNumber a) (mapModify kA (fun _ => eA)
            (mapModify kA (fun _ => eA) st.m_container)))) }) = (true, st)
      rw [h1, h1, h2, h2]
    refine ⟨?_, ?_, ?_⟩ <;> simp [hswap]
  · have hne : kA ≠ kB := by
      intro heq
      apply hab
      have heq2 : (kA, eB) ∈ st.m_container := by
        rw [heq]
        exact hBmem
      have he := value_eq_of_nodup_keys st.m_container hkeys kA eA eB hAmem heq2
      rw [← hAnum, he]
      exact hBnum
    have hswap1 := swapSets_eq_map st a b kA kB eA eB hA hB hne hkeys
    obtain ⟨l1, l2, hcB, hBn2, hl1⟩ := findByValue_decomp b st.m_container (kB, eB) hB
    obtain ⟨m1, m2, hcA, hAn2, hm1⟩ := findByValue_decomp a st.m_container (kA, eA) hA
    have hfstpres : ∀ p ∈ st.m_container,
        ((fun p : Int × Screenset => if p.1 = kA then (kA, changeSetNumber b eB)
          else if p.1 = kB then (kB, changeSetNumber a eA) else p) p).1 = p.1 := by
      intro p hp
      by_cases hpA : p.1 = kA
      · simp [hpA]
      · by_cases hpB : p.1 = kB
        · simp [hpA, hpB, Ne.symm hne]
        · simp [hpA, hpB]
    have hst1 : (swapSets st a b).2.m_container = st.m_container.map
        (fun p : Int × Screenset => if p.1 = kA then (kA, changeSetNumber b eB)
          else if p.1 = kB then (kB, changeSetNumber a eA) else p) := by
      rw [hswap1]
    have hkeys1 : (keysOf ((swapSets st a b).2.m_container)).Nodup := by
      rw [hst1, keysOf_map_fst_preserved _ st.m_container hfstpres]
      exact hkeys
    have hpre1 : ∀ q ∈ l1.map (fun p : Int × Screenset =>
        if p.1 = kA then (kA, changeSetNumber b eB)
        else if p.1 = kB then (kB, changeSetNumber a eA) else p),
        q.2.set_number ≠ a := by
      intro q hq
      obtain ⟨p, hp, rfl⟩ := List.mem_map.mp hq
      have hpc : p ∈ st.m_container := by
        rw [hcB]
        exact List.mem_append_left _ hp
      obtain ⟨p1, p2⟩ := p
      by_cases hpA : p1 = kA
      · rw [if_pos (show (p1, p2).1 = kA from hpA)]
        intro hba
        exact hab hba.symm
      · by_cases hpB : p1 = kB
        · exfalso
          have hp3 : (kB, p2) ∈ st.m_container := by
            rw [← hpB]
            exact hpc
          have hp2 : p2 = eB :=
            value_eq_of_nodup_keys st.m_container hkeys kB p2 eB hp3 hBmem
          apply hl1 (p1, p2) hp
          rw [hp2]
          exact hBnum
        · rw [if_neg (show ¬ ((p1, p2).1 = kA) from hpA),
              if_neg (show ¬ ((p1, p2).1 = kB) from hpB)]
          intro hnum2
          have hpeq : (p1, p2) = (kA, eA) :=
            entry_unique_of_nodup_nums st.m_container hnums (p1, p2) (kA, eA)
              hpc hAmem (by rw [hnum2]; exact hAnum.symm)
          rw [Prod.mk.injEq] at hpeq
          exact hpA hpeq.1
    have hpre2 : ∀ q ∈ m1.map (fun p : Int × Screenset =>
        if p.1 = kA then (kA, changeSetNumber b eB)
        else if p.1 = kB then (kB, changeSetNumber a eA) else p),
        q.2.set_number ≠ b := by
      intro q hq
      obtain ⟨p, hp, rfl⟩ := List.mem_map.mp hq
      have hpc : p ∈ st.m_container := by
        rw [hcA]
        exact List.mem_append_left _ hp
      obtain ⟨p1, p2⟩ := p
      by_cases hpA : p1 = kA
      · exfalso
        have hp3 : (kA, p2) ∈ st.m_container := by
          rw [← hpA]
          exact hpc
        have hp2 : p2 = eA :=
          value_eq_of_nodup_keys st.m_container hkeys kA p2 eA hp3 hAmem
        apply hm1 (p1, p2) hp
        rw [hp2]
        exact hAnum
      · by_cases hpB : p1 = kB
        · rw [if_neg (show ¬ ((p1, p2).1 = kA) from hpA),
              if_pos (show (p1, p2).1 = kB from hpB)]
          intro hba
          exact hab hba
        · rw [if_neg (show ¬ ((p1, p2).1 = kA) from hpA),
              if_neg (show ¬ ((p1, p2).1 = kB) from hpB)]
          intro hnum2
          have hpeq : (p1, p2) = (kB, eB) :=
            entry_unique_of_nodup_nums st.m_container hnums (p1, p2) (kB, eB)
              hpc hBmem (by rw [hnum2]; exact hBnum.symm)
          rw [Prod.mk.injEq] at hpeq
          exact hpB hpeq.1
    have hA2 : findByValue a ((swapSets st a b).2.m_container)
        = some (kB, changeSetNumber a eA) := by
      rw [hst1, hcB, List.map_append, List.map_cons]
      have hmid : (if ((kB, eB) : Int × Screenset).1 = kA then (kA, changeSetNumber b eB)
          else if ((kB, eB) : Int × Screenset).1 = kB then (kB, changeSetNumber a eA)
          else (kB, eB))
          = (kB, changeSetNumber a eA) := by
        simp [Ne.symm hne]
      rw [hmid]
      apply findByValue_of_decomp
      · simp [changeSetNumber]
      · exact hpre1
    have hB2 : findByValue b ((swapSets st a b).2.m_container)
        = some (kA, changeSetNumber b eB) := by
      rw [hst1, hcA, List.map_append, List.map_cons]
      have hmid : (if ((kA, eA) : Int × Screenset).1 = kA then (kA, changeSetNumber b eB)
          else if ((kA, eA) : Int × Screenset).1 = kB then (kB, changeSetNumber a eA)
          else (kA, eA))
          = (kA, changeSetNumber b eB) := by
        simp
      rw [hmid]
      apply findByValue_of_decomp
      · simp [changeSetNumber]
      · exact hpre2
    have hswap2 := swapSets_eq_map ((swapSets st a b).2) a b kB kA
      (changeSetNumber a eA) (changeSetNumber b eB) hA2 hB2 (Ne.symm hne) hkeys1
    refine ⟨by rw [hswap1], by rw [hswap2], ?_⟩
    rw [hswap2]
    show { (swapSets st a b).2 with m_container :=
        (((swapSets st a b).2.m_container).map
          (fun p : Int × Screenset =>
            if p.1 = kB then (kB, changeSetNumber b (changeSetNumber b eB))
            else if p.1 = kA then (kA, changeSetNumber a (changeSetNumber a eA))
            else p)) } = st
    rw [hst1, hswap1]
    show { st with m_container := ((st.m_container.map
        (fun p : Int × Screenset => if p.1 = kA then (kA, changeSetNumber b eB)
          else if p.1 = kB then (kB, changeSetNumber a eA) else p)).map
        (fun p : Int × Screenset =>
          if p.1 = kB then (kB, changeSetNumber b (changeSetNumber b eB))
          else if p.1 = kA then (kA, changeSetNumber a (changeSetNumber a eA))
          else p)) } = st
    have hfinal : ((st.m_container.map
        (fun p : Int × Screenset => if p.1 = kA then (kA, changeSetNumber b eB)
          else if p.1 = kB then (kB, changeSetNumber a eA) else p)).map
        (fun p : Int × Screenset =>
          if p.1 = kB then (kB, changeSetNumber b (changeSetNumber b eB))
          else if p.1 = kA then (kA, changeSetNumber a (changeSetNumber a eA))
          else p)) = st.m_container := by
      rw [List.map_map]
      have hpt : ∀ p ∈ st.m_container,
          (((fun p : Int × Screenset =>
            if p.1 = kB then (kB, changeSetNumber b (changeSetNumber b eB))
            else if p.1 = kA then (kA, changeSetNumber a (changeSetNumber a eA))
            else p) ∘ (fun p : Int × Screenset =>
            if p.1 = kA then (kA, changeSetNumber b eB)
            else if p.1 = kB then (kB, changeSetNumber a eA) else p)) p) = p := by
        intro p hp
        obtain ⟨p1, p2⟩ := p
        by_cases hpA : p1 = kA
        · have hpmem : (kA, p2) ∈ st.m_container := by
            rw [← hpA]
            exact hp
          have hp2 : p2 = eA :=
            value_eq_of_nodup_keys st.m_container hkeys kA p2 eA hpmem hAmem
          rw [hpA, hp2]
          simp [Function.comp, hne, Ne.symm hne, changeSetNumber_comp,
            changeSetNumber_of_eq a eA hAnum]
        · by_cases hpB : p1 = kB
          · have hpmem : (kB, p2) ∈ st.m_container := by
              rw [← hpB]
              exact hp
            have hp2 : p2 = eB :=
              value_eq_of_nodup_keys st.m_container hkeys kB p2 eB hpmem hBmem
            rw [hpB, hp2]
            simp [Function.comp, Ne.symm hne, changeSetNumber_comp,
              changeSetNumber_of_eq b eB hBnum]
          · simp [Function.comp, hpA, hpB]
      rw [List.map_congr_left hpt]
      exact List.map_id _
    rw [hfinal]

/-- Witness for C3 on a fresh manager plus set 5: swapping sets 0 and 5
twice returns the exact pre-swap state. -/
theorem swapSets_involution_witness :
    (swapSets ((addSet initSetmaster 5).1) 0 5).1 = true ∧
    (swapSets (swapSets ((addSet initSetmaster 5).1) 0 5).2 0 5).1 = true ∧
    (swapSets (swapSets ((addSet initSetmaster 5).1) 0 5).2 0 5).2
      = (addSet initSetmaster 5).1 :=
  swapSets_involution ((addSet initSetmaster 5).1) 0 5
    (by decide) (by decide) (by decide) (by decide)

/-! ### Lemmas for the fresh-number activation path -/

theorem setPlayscreenFlag_set_number (b : Bool) (e : Screenset) :
    (setPlayscreenFlag b e).set_number = e.set_number := rfl

theorem setPlayscreenFlag_idem (b b2 : Bool) (e : Screenset) :
    setPlayscreenFlag b (setPlayscreenFlag b2 e) = setPlayscreenFlag b e := rfl

theorem playscreenFinish_true (st : Setmaster) :
    playscreenFinish true st
      = (true, { st with m_playscreen_pointer := some st.m_playscreen }) := rfl

theorem playscreenPresentPath_eq (st : Setmaster) (n : Int) (e : Screenset)
    (hps : mapFind st.m_playscreen st.m_container = some e) :
    playscreenPresentPath st n = { st with
      m_container := (mapModify n (setPlayscreenFlag true)
        (mapModify st.m_playscreen (setPlayscreenFlag false) st.m_container)),
      m_playscreen := n } := by
  simp only [playscreenPresentPath, hps]

theorem setPlayscreenFuel_succ_present (fuel : Nat) (st : Setmaster) (n : Int)
    (hrange : 0 ≤ n ∧ n < screensetLimit) (e : Screenset)
    (hfind : mapFind n st.m_container = some e) :
    setPlayscreenFuel (fuel + 1) st n
      = playscreenFinish true (playscreenPresentPath st n) := by
  simp only [setPlayscreenFuel, hfind, if_pos hrange]

theorem setPlayscreenFuel_succ_absent (fuel : Nat) (st : Setmaster) (n : Int)
    (hrange : 0 ≤ n ∧ n < screensetLimit)
    (habs : mapFind n st.m_container = none) :
    setPlayscreenFuel (fuel + 1) st n
      = playscreenFinish true
          { (setPlayscreenFuel fuel (addSet st n).1 n).2 with m_container :=
              (mapModify n (setPlayscreenFlag true)
                (setPlayscreenFuel fuel (addSet st n).1 n).2.m_container) } := by
  simp only [setPlayscreenFuel, habs, if_pos hrange]

/-- C5: for a fresh in-range number `n` — no entity keyed `n`, and, as holds
in every reachable state, no entity with own set-number `n` and no duplicate
keys — `set_playscreen(n)` creates exactly one new entity (the mapping grows
by one), marks it active, unmarks the previously active play-screen entity,
stores `n` as the play-screen identity, returns success, and a subsequent
`find_by_value(n)` locates the newly created entity. -/
theorem setPlayscreen_fresh (st : Setmaster) (n : Int)
    (hrange : 0 ≤ n ∧ n < screensetLimit)
    (habs : mapFind n st.m_container = none)
    (hval : ∀ p ∈ st.m_container, p.2.set_number ≠ n)
    (hkeys : (keysOf st.m_container).Nodup)
    (eP : Screenset)
    (hps : mapFind st.m_playscreen st.m_container = some eP)
    (hact : eP.is_playscreen = true) :
    (setPlayscreen st n).1 = true ∧
    (setPlayscreen st n).2.m_playscreen = n ∧
    (setPlayscreen st n).2.m_container.length = st.m_container.length + 1 ∧
    mapFind n (setPlayscreen st n).2.m_container
      = some (setPlayscreenFlag true (mkScreenset n st.m_rows st.m_columns)) ∧
    mapFind st.m_playscreen (setPlayscreen st n).2.m_container
      = some (setPlayscreenFlag false eP) ∧
    findByValue n (setPlayscreen st n).2.m_container
      = some (n, setPlayscreenFlag true (mkScreenset n st.m_rows st.m_columns)) := by
  have hpsne : n ≠ st.m_playscreen := by
    intro heq
    rw [← heq] at hps
    rw [habs] at hps
    exact Option.noConfusion hps
  have hfindI : mapFind n
      (mapInsert n (mkScreenset n st.m_rows st.m_columns) st.m_container)
      = some (mkScreenset n st.m_rows st.m_columns) :=
    mapFind_mapInsert_self n _ st.m_container habs
  have hfindPS : mapFind st.m_playscreen
      (mapInsert n (mkScreenset n st.m_rows st.m_columns) st.m_container)
      = some eP := by
    rw [mapFind_mapInsert_ne n st.m_playscreen _ st.m_container hpsne]
    exact hps
  have hmain : setPlayscreen st n = (true,
      { st with
        m_container := (mapModify n (setPlayscreenFlag true)
          (mapModify n (setPlayscreenFlag true)
            (mapModify st.m_playscreen (setPlayscreenFlag false)
              (mapInsert n (mkScreenset n st.m_rows st.m_columns) st.m_container)))),
        m_playscreen := n,
        m_playscreen_pointer := some n }) := by
    have e1 : setPlayscreen st n = setPlayscreenFuel (1 + 1) st n := rfl
    rw [e1, setPlayscreenFuel_succ_absent 1 st n hrange habs]
    have e2 : setPlayscreenFuel 1 (addSet st n).1 n
        = setPlayscreenFuel (0 + 1) (addSet st n).1 n := rfl
    rw [e2, setPlayscreenFuel_succ_present 0 (addSet st n).1 n hrange
      (mkScreenset n st.m_rows st.m_columns) hfindI]
    rw [playscreenPresentPath_eq (addSet st n).1 n eP hfindPS]
    rw [playscreenFinish_true, playscreenFinish_true]
    rfl
  refine ⟨by rw [hmain], by rw [hmain], ?_, ?_, ?_, ?_⟩
  · rw [hmain]
    show (mapModify n (setPlayscreenFlag true)
        (mapModify n (setPlayscreenFlag true)
          (mapModify st.m_playscreen (setPlayscreenFlag false)
            (mapInsert n (mkScreenset n st.m_rows st.m_columns)
              st.m_container)))).length = st.m_container.length + 1
    rw [length_mapModify, length_mapModify, length_mapModify,
      length_mapInsert_absent n _ st.m_container habs]
  · rw [hmain]
    show mapFind n (mapModify n (setPlayscreenFlag true)
        (mapModify n (setPlayscreenFlag true)
          (mapModify st.m_playscreen (setPlayscreenFlag false)
            (mapInsert n (mkScreenset n st.m_rows st.m_columns)
              st.m_container))))
      = some (setPlayscreenFlag true (mkScreenset n st.m_rows st.m_columns))
    rw [mapFind_mapModify_self, mapFind_mapModify_self,
      mapFind_mapModify_ne st.m_playscreen n _ _ (fun h => hpsne h.symm), hfindI]
    rfl
  · rw [hmain]
    show mapFind st.m_playscreen (mapModify n (setPlayscreenFlag true)
        (mapModify n (setPlayscreenFlag true)
          (mapModify st.m_playscreen (setPlayscreenFlag false)
            (mapInsert n (mkScreenset n st.m_rows st.m_columns)
              st.m_container))))
      = some (setPlayscreenFlag false eP)
    rw [mapFind_mapModify_ne n st.m_playscreen _ _ hpsne,
      mapFind_mapModify_ne n st.m_playscreen _ _ hpsne,
      mapFind_mapModify_self, hfindPS]
    rfl
  · rw [hmain]
    show findByValue n (mapModify n (setPlayscreenFlag true)
        (mapModify n (setPlayscreenFlag true)
          (mapModify st.m_playscreen (setPlayscreenFlag false)
            (mapInsert n (mkScreenset n st.m_rows st.m_columns)
              st.m_container))))
      = some (n, setPlayscreenFlag true (mkScreenset n st.m_rows st.m_columns))
    obtain ⟨l1, l2, hieq, hceq⟩ :=
      mapInsert_decomp n (mkScreenset n st.m_rows st.m_columns) st.m_container habs
    have hnotin : n ∉ keysOf st.m_container := by
      intro hmem
      rw [← mapFind_isSome_iff] at hmem
      rw [habs] at hmem
      simp at hmem
    have hkeysI : (keysOf
        (l1 ++ (n, mkScreenset n st.m_rows st.m_columns) :: l2)).Nodup := by
      rw [keysOf, List.map_append, List.map_cons, List.nodup_middle,
        List.nodup_cons]
      constructor
      · rw [← List.map_append]
        intro hmem
        apply hnotin
        rw [keysOf, hceq]
        exact hmem
      · rw [← List.map_append, ← hceq]
        exact hkeys
    have hfpres1 : ∀ p ∈ (l1 ++ (n, mkScreenset n st.m_rows st.m_columns) :: l2),
        ((fun q : Int × Screenset =>
          if q.1 = st.m_playscreen then (q.1, setPlayscreenFlag false q.2) else q)
          p).1 = p.1 := by
      intro p hp
      by_cases h1 : p.1 = st.m_playscreen <;> simp [h1]
    have hkeys2 : (keysOf ((l1 ++ (n, mkScreenset n st.m_rows st.m_columns) :: l2).map
        (fun q : Int × Screenset =>
          if q.1 = st.m_playscreen then (q.1, setPlayscreenFlag false q.2) else q))).Nodup := by
      rw [keysOf_map_fst_preserved _ _ hfpres1]
      exact hkeysI
    have hfpres2 : ∀ (c2 : Container), (∀ p ∈ c2,
        ((fun q : Int × Screenset =>
          if q.1 = n then (q.1, setPlayscreenFlag true q.2) else q) p).1 = p.1) := by
      intro c2 p hp
      by_cases h1 : p.1 = n <;> simp [h1]
    have hkeys3 : (keysOf (((l1 ++ (n, mkScreenset n st.m_rows st.m_columns) :: l2).map
        (fun q : Int × Screenset =>
          if q.1 = st.m_playscreen then (q.1, setPlayscreenFlag false q.2) else q)).map
        (fun q : Int × Screenset =>
          if q.1 = n then (q.1, setPlayscreenFlag true q.2) else q))).Nodup := by
      rw [keysOf_map_fst_preserved _ _ (hfpres2 _)]
      exact hkeys2
    rw [hieq]
    rw [mapModify_eq_map st.m_playscreen (setPlayscreenFlag false) _ hkeysI]
    rw [mapModify_eq_map n (setPlayscreenFlag true) _ hkeys2]
    rw [mapModify_eq_map n (setPlayscreenFlag true) _ hkeys3]
    rw [List.map_map, List.map_map, List.map_append, List.map_cons]
    have hhead : ((((fun q : Int × Screenset =>
          if q.1 = n then (q.1, setPlayscreenFlag true q.2) else q) ∘
        (fun q : Int × Screenset =>
          if q.1 = n then (q.1, setPlayscreenFlag true q.2) else q)) ∘
        (fun q : Int × Screenset =>
          if q.1 = st.m_playscreen then (q.1, setPlayscreenFlag false q.2) else q))
        ((n, mkScreenset n st.m_rows st.m_columns) : Int × Screenset))
        = (n, setPlayscreenFlag true (mkScreenset n st.m_rows st.m_columns)) := by
      simp [Function.comp, hpsne, setPlayscreenFlag_idem]
    rw [hhead]
    apply findByValue_of_decomp
    · simp [setPlayscreenFlag, mkScreenset]
    · intro q hq2
      obtain ⟨p, hp, rfl⟩ := List.mem_map.mp hq2
      have hnum2 : p.2.set_number ≠ n := by
        apply hval p
        rw [hceq]
        exact List.mem_append_left _ hp
      by_cases h1 : p.1 = st.m_playscreen
      · by_cases h2 : p.1 = n
        · exfalso
          apply hpsne
          rw [← h2, h1]
        · have hpsne2 : ¬ (st.m_playscreen = n) := fun h => hpsne h.symm
          simp [Function.comp, h1, h2, setPlayscreenFlag, hnum2, hpsne2]
      · by_cases h2 : p.1 = n
        · simp [Function.comp, h1, h2, setPlayscreenFlag, hnum2, hpsne]
        · simp [Function.comp, h1, h2, setPlayscreenFlag, hnum2]

/-- Witness for C5: activating fresh set 3 on a freshly constructed manager
creates it, activates it, deactivates set 0, succeeds, and `find_by_value 3`
locates the new entity. -/
theorem setPlayscreen_fresh_witness :
    (setPlayscreen initSetmaster 3).1 = true ∧
    (setPlayscreen initSetmaster 3).2.m_playscreen = 3 ∧
    (setPlayscreen initSetmaster 3).2.m_container.length
      = initSetmaster.m_container.length + 1 ∧
    mapFind 3 (setPlayscreen initSetmaster 3).2.m_container
      = some (setPlayscreenFlag true
          (mkScreenset 3 initSetmaster.m_rows initSetmaster.m_columns)) ∧
    mapFind initSetmaster.m_playscreen
        (setPlayscreen initSetmaster 3).2.m_container
      = some (setPlayscreenFlag false
          (setPlayscreenFlag true (mkScreenset 0 4 8))) ∧
    findByValue 3 (setPlayscreen initSetmaster 3).2.m_container
      = some (3, setPlayscreenFlag true
          (mkScreenset 3 initSetmaster.m_rows initSetmaster.m_columns)) :=
  setPlayscreen_fresh initSetmaster 3 (by decide) (by decide) (by decide)
    (by decide) (setPlayscreenFlag true (mkScreenset 0 4 8)) (by decide)
    (by decide)

end Seq66
